import Mathlib

/-!
Verification development for the Draicor Bros arcade platformer
(`src/index.tsx`).  The simulation layer is shallowly embedded: JS numbers
are modelled as rationals, the global mutable world as an explicit
`GameState`, and every call to `Math.random()` as the next element of an
explicit stream of rational draws carried in an `Env` value.  Rendering and
DOM/localStorage effects are out of scope (the spec treats them as external
collaborators); `draw` is modelled only where its observable behaviour
matters (whether the explosive block emits draw instructions at all).
-/

set_option linter.unusedVariables false

/-! ### Game constants (src/index.tsx, lines 23-35) -/

def GAME_WIDTH : ℚ := 960
def GAME_HEIGHT : ℚ := 720
def GRAVITY : ℚ := 0.6
def PLAYER_SPEED : ℚ := 5
def PLAYER_JUMP : ℚ := -15
def ENEMY_SPEED : ℚ := 1.5
def FLIP_DURATION : ℚ := 5000
def LIVES_START : ℤ := 3
def EXTRA_LIFE_SCORE : ℤ := 20000
def LEVEL_TRANSITION_TIME : ℚ := 1500
def EXPLOSIVE_BLOCK_USES : ℤ := 3

/-- A spawn point at the top of the arena (src/index.tsx lines 37-40). -/
structure Pt where
  x : ℚ
  y : ℚ
deriving DecidableEq, Repr

def spawnPoints : List Pt := [⟨150, 60⟩, ⟨GAME_WIDTH - 150, 60⟩]

/-! ### Environment: random draws and the emoji regex

`Math.random()` is modelled as reading successive elements of an ambient
stream of rationals (each draw lies in `[0,1)` at runtime; the stream is
arbitrary here).  The `/\p{Emoji}/u` regex test used by the `Particle`
constructor is an opaque environment predicate on strings. -/

structure Env where
  rand : ℕ → ℚ
  idx : ℕ
  emojiTest : String → Bool

def Env.next (env : Env) : ℚ × Env :=
  (env.rand env.idx, { env with idx := env.idx + 1 })

/-- Source `randomInt(min, max)` (src/index.tsx lines 57-59):
`Math.floor(Math.random() * (max - min + 1) + min)`. -/
def randomInt (env : Env) (lo hi : ℚ) : ℤ × Env :=
  let (r, env) := env.next
  (⌊r * (hi - lo + 1) + lo⌋, env)

/-- The `(Math.random() < 0.5 ? 1 : -1)` direction draw used by enemy
constructors. -/
def randDir (env : Env) : ℚ × Env :=
  let (r, env) := env.next
  (if r < 0.5 then 1 else -1, env)

/-! ### Entity state (src/index.tsx classes) -/

structure Controls where
  left : String
  right : String
  jump : String
deriving DecidableEq, Repr

/-- Source `class Player` fields (src/index.tsx lines 62-101).  The two DOM element
references are presentation-only and omitted. -/
structure Player where
  id : ℤ
  x : ℚ
  y : ℚ
  width : ℚ
  height : ℚ
  vx : ℚ
  vy : ℚ
  onGround : Bool
  sprite : String
  onFrozenPlatform : Bool
  controls : Controls
  isDead : Bool
  score : ℤ
  lives : ℤ
  nextExtraLifeScore : ℤ
deriving DecidableEq, Repr

/-- Variant-specific enemy state: `JumpingEnemy.jumpCooldown`,
`IceBomberEnemy.timer`/`platform` (the platform reference is an index into
the current platform list), `ToughEnemy.hitsLeft`. -/
inductive EnemyKind where
  | basic
  | fast
  | jumping (jumpCooldown : ℤ)
  | iceBomber (timer : ℚ) (platform : Option ℕ)
  | tough (hitsLeft : ℤ)
deriving DecidableEq, Repr

/-- Source `class Enemy` common fields (src/index.tsx lines 181-206) plus the
variant tag. -/
structure Enemy where
  x : ℚ
  y : ℚ
  width : ℚ
  height : ℚ
  vx : ℚ
  vy : ℚ
  sprite : String
  isFlipped : Bool
  flipTimer : ℚ
  onGround : Bool
  hitAnimationTimer : ℚ
  kind : EnemyKind
deriving DecidableEq, Repr

/-- Source `class Platform` fields (src/index.tsx lines 371-396). -/
structure Platform where
  x : ℚ
  y : ℚ
  width : ℚ
  height : ℚ
  color : String
  isFloor : Bool
  isFrozen : Bool
  frozenTimer : ℚ
  vx : ℚ
  startX : ℚ
  range : ℚ
deriving DecidableEq, Repr

/-- Source `class ExplosiveBlock` fields (src/index.tsx lines 431-448). -/
structure ExplosiveBlock where
  x : ℚ
  y : ℚ
  width : ℚ
  height : ℚ
  initialHeight : ℚ
  usesLeft : ℤ
  cooldown : ℚ
deriving DecidableEq, Repr

/-- Source `class Particle` fields (src/index.tsx lines 494-513). -/
structure Particle where
  x : ℚ
  y : ℚ
  size : ℚ
  vx : ℚ
  vy : ℚ
  sprite : String
  life : ℚ
  isEmoji : Bool
deriving DecidableEq, Repr

/-- The `gameState` string union (src/index.tsx line 51). -/
inductive Mode where
  | playerSelect
  | playing
  | gameOver
  | levelTransition
  | paused
deriving DecidableEq, Repr

/-- The mutable global world (src/index.tsx lines 42-53) plus the ambient
environment.  `keys` is the held-key map fed by the input collaborator. -/
structure GameState where
  highScore : ℤ
  level : ℤ
  players : List Player
  enemies : List Enemy
  platforms : List Platform
  particles : List Particle
  explosiveBlock : ExplosiveBlock
  keys : String → Bool
  gameState : Mode
  levelTransitionTimer : ℚ
  env : Env

/-! ### Particle (src/index.tsx lines 494-533) -/

/-- Source `new Particle(x, y, sprite)`: the constructor tests the sprite against
the emoji regex, then draws size (non-emoji only), vx and vy from
`Math.random()` in source order. -/
def Particle.mk' (env : Env) (x y : ℚ) (sprite : String) : Particle × Env :=
  let isEmoji := env.emojiTest sprite
  let (size, env) :=
    if isEmoji then ((20 : ℚ), env)
    else
      let (r, env) := env.next
      (r * 5 + 2, env)
  let (r1, env) := env.next
  let (r2, env) := env.next
  ({ x := x, y := y, size := size, vx := (r1 - 0.5) * 8, vy := (r2 - 0.5) * 8,
     sprite := sprite, life := 100, isEmoji := isEmoji }, env)

/-- A burst of `n` particles pushed in creation order (the
`for (...) particles.push(new Particle(...))` loops). -/
def mkParticles (env : Env) (n : ℕ) (x y : ℚ) (sprite : String) :
    List Particle × Env :=
  match n with
  | 0 => ([], env)
  | n + 1 =>
    let pe := Particle.mk' env x y sprite
    let rest := mkParticles pe.2 n x y sprite
    (pe.1 :: rest.1, rest.2)

/-- Source `Particle.update()` (src/index.tsx lines 527-533). -/
def Particle.update (p : Particle) : Particle :=
  let p := { p with x := p.x + p.vx, y := p.y + p.vy, vy := p.vy + GRAVITY * 0.1, life := p.life - 1 }
  if p.isEmoji = true ∧ p.size > 0.2 then { p with size := p.size - 0.2 } else p

/-! ### Player (src/index.tsx lines 62-178) -/

/-- Source `Player.update()` (src/index.tsx lines 111-138). -/
def Player.update (keys : String → Bool) (p : Player) : Player :=
  if p.isDead = true then p
  else
    let vx :=
      if p.onFrozenPlatform = true then
        if keys p.controls.left = false ∧ keys p.controls.right = false then
          let v := p.vx * 0.97
          if |v| < 0.1 then 0 else v
        else
          let v := p.vx
          let v := if keys p.controls.left = true then -PLAYER_SPEED else v
          if keys p.controls.right = true then PLAYER_SPEED else v
      else
        let v : ℚ := 0
        let v := if keys p.controls.left = true then -PLAYER_SPEED else v
        if keys p.controls.right = true then PLAYER_SPEED else v
    let x := p.x + vx
    let x := if x < -p.width then GAME_WIDTH else x
    let x := if x > GAME_WIDTH then -p.width else x
    let vy := p.vy + GRAVITY
    { p with vx := vx, x := x, vy := vy, y := p.y + vy,
             onGround := false, onFrozenPlatform := false }

/-- Source `Player.addScore(points)` (src/index.tsx lines 166-178), returning the
updated player and the updated global `highScore` (the localStorage write
and UI refresh are external effects). -/
def Player.addScore (p : Player) (points : ℤ) (highScore : ℤ) : Player × ℤ :=
  let p := { p with score := p.score + points }
  let p :=
    if p.score ≥ p.nextExtraLifeScore then
      { p with lives := p.lives + 1,
               nextExtraLifeScore := p.nextExtraLifeScore + EXTRA_LIFE_SCORE }
    else p
  (p, if p.score > highScore then p.score else highScore)

/-! ### Enemy flipping (src/index.tsx lines 264-270, 341-343, 353-363) -/

/-- The base-class `Enemy.flip()` (src/index.tsx lines 264-270). -/
def Enemy.baseFlip (e : Enemy) : Enemy :=
  if e.isFlipped = false then
    { e with isFlipped := true, flipTimer := FLIP_DURATION, vy := -5 }
  else e

/-- Virtual dispatch of `flip()`: `IceBomberEnemy` and `ToughEnemy` override
it, the other variants inherit the base behaviour. -/
def Enemy.flip (e : Enemy) : Enemy :=
  match e.kind with
  | .iceBomber t pf => { e with kind := .iceBomber (min t 100) pf }
  | .tough hitsLeft =>
    if e.isFlipped = true then e
    else
      let e := { e with kind := .tough (hitsLeft - 1), vy := -3 }
      if hitsLeft - 1 ≤ 0 then e.baseFlip
      else { e with hitAnimationTimer := 300, sprite := "👺" }
  | _ => e.baseFlip

/-! ### Platform (src/index.tsx lines 371-429) -/

/-- Source `new Platform(x, y, width, height = 20, isFloor = false)`. -/
def Platform.mk' (x y width : ℚ) (height : ℚ := 20) (isFloor : Bool := false) :
    Platform :=
  { x := x, y := y, width := width, height := height, color := "#0074D9",
    isFloor := isFloor, isFrozen := false, frozenTimer := 0, vx := 0,
    startX := x, range := 0 }

/-- The frozen-timer half of `Platform.update()` (src/index.tsx lines
404-407). -/
def Platform.updateFrozen (p : Platform) : Platform :=
  if p.isFrozen = true then
    let t := p.frozenTimer - 1000 / 60
    if t ≤ 0 then { p with frozenTimer := t, isFrozen := false }
    else { p with frozenTimer := t }
  else p

/-- The patrol half of `Platform.update()` (src/index.tsx lines 408-413):
move by `vx`, then reverse direction at or beyond either patrol bound. -/
def Platform.updatePatrol (p : Platform) : Platform :=
  if p.vx ≠ 0 then
    let p := { p with x := p.x + p.vx }
    if p.x ≤ p.startX ∨ p.x ≥ p.startX + p.range then { p with vx := -p.vx }
    else p
  else p

/-- Source `Platform.update()` (src/index.tsx lines 403-414). -/
def Platform.update (p : Platform) : Platform :=
  p.updateFrozen.updatePatrol

/-- Source `Platform.freeze()` (src/index.tsx lines 416-419). -/
def Platform.freeze (p : Platform) : Platform :=
  { p with isFrozen := true, frozenTimer := 7000 }

/-- Source `Platform.makeMobile(speed, range)` (src/index.tsx lines 421-428). -/
def Platform.makeMobile (p : Platform) (speed range : ℚ) : Platform :=
  let p := { p with vx := speed, range := range }
  if speed < 0 then { p with startX := p.x - range } else p

/-! ### ExplosiveBlock (src/index.tsx lines 431-492) -/

/-- Source `new ExplosiveBlock()` (src/index.tsx lines 440-448). -/
def ExplosiveBlock.init : ExplosiveBlock :=
  { width := 50, initialHeight := 50, height := 50,
    x := GAME_WIDTH / 2 - 50 / 2, y := GAME_HEIGHT - 180,
    usesLeft := EXPLOSIVE_BLOCK_USES, cooldown := 0 }

/-- Source `ExplosiveBlock.draw()` (src/index.tsx lines 450-466) returns before
emitting any draw instruction when `usesLeft <= 0`; modelled as whether
anything is drawn. -/
def ExplosiveBlock.draw (b : ExplosiveBlock) : Bool :=
  if b.usesLeft ≤ 0 then false else true

/-- Source `ExplosiveBlock.update()` (src/index.tsx lines 468-470). -/
def ExplosiveBlock.update (b : ExplosiveBlock) : ExplosiveBlock :=
  if b.cooldown > 0 then { b with cooldown := b.cooldown - 1000 / 60 } else b

/-- Source `ExplosiveBlock.reset()` (src/index.tsx lines 487-492). -/
def ExplosiveBlock.reset (b : ExplosiveBlock) : ExplosiveBlock :=
  { b with usesLeft := EXPLOSIVE_BLOCK_USES, height := b.initialHeight,
           y := GAME_HEIGHT - 180 }

/-! ### State-level helpers -/

/-- Write back the player at index `i` (players are mutated in place in the
source; the array itself is never resized or reordered). -/
def setPlayer (s : GameState) (i : ℕ) (p : Player) : GameState :=
  { s with players := s.players.set i p }

/-- The score stored at index `i` of a player list (0 when out of
range). -/
def scoresOf (l : List Player) (i : ℕ) : ℤ :=
  match l[i]? with
  | some p => p.score
  | none => 0

/-- The score of player `i` (0 when the index is out of range). -/
def scoreAt (s : GameState) (i : ℕ) : ℤ :=
  scoresOf s.players i

/-- Source `checkGameOver()` (src/index.tsx lines 821-826). -/
def checkGameOver (s : GameState) : GameState :=
  if s.players.all (fun p => p.isDead) = true then { s with gameState := Mode.gameOver }
  else s

/-- Source `Player.die()` (src/index.tsx lines 146-164) for the player at index
`i`: early-returns when already dead, otherwise decrements lives, spawns a
50-particle burst, then either marks dead and runs `checkGameOver()` or
respawns. -/
def dieAt (s : GameState) (i : ℕ) : GameState :=
  match s.players[i]? with
  | none => s
  | some p =>
    if p.isDead = true then s
    else
      let p := { p with lives := p.lives - 1 }
      let pe := mkParticles s.env 50 (p.x + p.width / 2) (p.y + p.height / 2) p.sprite
      let s := { s with players := s.players.set i p,
                        particles := s.particles ++ pe.1, env := pe.2 }
      if p.lives ≤ 0 then
        checkGameOver (setPlayer s i { p with isDead := true })
      else
        setPlayer s i
          { p with x := GAME_WIDTH / 2 - p.width / 2,
                   y := GAME_HEIGHT - p.height - 100, vx := 0, vy := 0 }

/-- Source `ExplosiveBlock.hit()` (src/index.tsx lines 472-485): needs the world
because it flips every enemy and spawns particles. -/
def hitBlock (s : GameState) : GameState :=
  let b := s.explosiveBlock
  if b.usesLeft > 0 ∧ b.cooldown ≤ 0 then
    let b := { b with usesLeft := b.usesLeft - 1, cooldown := 500 }
    let enemies := s.enemies.map Enemy.flip
    let pe := mkParticles s.env 50 (b.x + b.width / 2) b.y ("💥")
    let flattenAmount := b.initialHeight / (EXPLOSIVE_BLOCK_USES : ℚ)
    let b := { b with height := b.height - flattenAmount, y := b.y + flattenAmount }
    { s with explosiveBlock := b, enemies := enemies,
             particles := s.particles ++ pe.1, env := pe.2 }
  else s

/-! ### Enemy per-tick update (src/index.tsx lines 226-262 and variants) -/

/-- The base-class part of `Enemy.update()` (src/index.tsx lines 226-262):
hit-animation and flip timers, horizontal-exit respawn, gravity, and the
platform-landing fold (which drags the enemy with non-floor platforms).
The spawn-point index is in range whenever the random draw lies in
`[0,1)`. -/
def Enemy.updateBase (platforms : List Platform) (env : Env) (e : Enemy) :
    Enemy × Env :=
  let e :=
    if e.hitAnimationTimer > 0 then
      { e with hitAnimationTimer := e.hitAnimationTimer - 1000 / 60 }
    else e
  let e :=
    if e.isFlipped = true then
      let t := e.flipTimer - 1000 / 60
      if t ≤ 0 then { e with flipTimer := t, isFlipped := false, y := e.y - 5 }
      else { e with flipTimer := t }
    else e
  let (e, env) :=
    if e.x + e.width < 0 ∨ e.x > GAME_WIDTH then
      let (j, env) := randomInt env 0 ((spawnPoints.length : ℚ) - 1)
      let sp := spawnPoints.getD j.toNat ⟨150, 60⟩
      ({ e with x := sp.x, y := sp.y, vy := 0 }, env)
    else (e, env)
  let e := { e with vy := e.vy + GRAVITY }
  let e := { e with y := e.y + e.vy, onGround := false }
  let e := platforms.foldl (fun e p =>
    if e.x < p.x + p.width ∧ e.x + e.width > p.x ∧
       e.y + e.height ≥ p.y ∧ e.y + e.height ≤ p.y + p.height + 10 ∧ e.vy ≥ 0 then
      let e := { e with y := p.y - e.height, vy := 0, onGround := true }
      if p.isFloor = false then { e with x := e.x + p.vx } else e
    else e) e
  (e, env)

/-- Source `IceBomberEnemy.explode()` (src/index.tsx lines 335-340), with `this`
sitting at index `k` of the roster (where `enemies.indexOf(this)` finds
it during the enemy update loop): splice out, 40-particle burst, freeze the
guarded platform. -/
def explodeAt (s : GameState) (k : ℕ) (e : Enemy) (pf : Option ℕ) : GameState :=
  let s := { s with enemies := s.enemies.eraseIdx k }
  let pe := mkParticles s.env 40 e.x e.y e.sprite
  let s := { s with particles := s.particles ++ pe.1, env := pe.2 }
  match pf with
  | some pi =>
    match s.platforms[pi]? with
    | some p => { s with platforms := s.platforms.set pi p.freeze }
    | none => s
  | none => s

/-- One step of the `enemies.forEach(e => e.update())` loop: dispatches the
variant `update()` override for the enemy currently at index `k` (skipped,
as JS `forEach` does, when the index has fallen off the shrunk array). -/
def updateEnemyAt (s : GameState) (k : ℕ) : GameState :=
  match s.enemies[k]? with
  | none => s
  | some e =>
    match e.kind with
    | .basic =>
      let r := e.updateBase s.platforms s.env
      let e := if r.1.isFlipped = false then { r.1 with x := r.1.x + r.1.vx } else r.1
      { s with enemies := s.enemies.set k e, env := r.2 }
    | .fast =>
      let r := e.updateBase s.platforms s.env
      let e := if r.1.isFlipped = false then { r.1 with x := r.1.x + r.1.vx } else r.1
      { s with enemies := s.enemies.set k e, env := r.2 }
    | .tough hitsLeft =>
      let r := e.updateBase s.platforms s.env
      let e := if r.1.isFlipped = false then { r.1 with x := r.1.x + r.1.vx } else r.1
      { s with enemies := s.enemies.set k e, env := r.2 }
    | .jumping jumpCooldown =>
      let r := e.updateBase s.platforms s.env
      let jc := jumpCooldown - 1
      let r2 :=
        if r.1.onGround = true ∧ jc ≤ 0 ∧ r.1.isFlipped = false then
          let c := randomInt r.2 100 300
          ({ r.1 with vy := -8, onGround := false, kind := .jumping c.1 }, c.2)
        else ({ r.1 with kind := .jumping jc }, r.2)
      let e := if r2.1.isFlipped = false then { r2.1 with x := r2.1.x + r2.1.vx } else r2.1
      { s with enemies := s.enemies.set k e, env := r2.2 }
    | .iceBomber timer pf =>
      let r := e.updateBase s.platforms s.env
      let t := timer - 1000 / 60
      let e := { r.1 with kind := .iceBomber t pf }
      if t ≤ 0 ∧ e.isFlipped = false then
        -- the post-explode re-centering mutates the detached object only
        explodeAt { s with env := r.2 } k e pf
      else
        let e :=
          match pf with
          | some pi =>
            match s.platforms[pi]? with
            | some p => { e with x := p.x + p.width / 2 - e.width / 2 }
            | none => e
          | none => e
        { s with enemies := s.enemies.set k e, env := r.2 }

/-- The whole `enemies.forEach(e => e.update())` phase: JS `forEach`
captures the length up front and skips indices past the end of the
shrinking array. -/
def enemiesUpdatePhase (s : GameState) : GameState :=
  (List.range s.enemies.length).foldl updateEnemyAt s

/-! ### Collision pass (src/index.tsx `handleCollisions`, lines 652-746) -/

/-- Phase 1 for player `i`: the explosive block as a steppable surface
(src/index.tsx lines 656-664).  Gated on `block.usesLeft > 0`. -/
def playerBlockLand (s : GameState) (i : ℕ) : GameState :=
  match s.players[i]? with
  | none => s
  | some p =>
    let block := s.explosiveBlock
    if block.usesLeft > 0 ∧
       p.x < block.x + block.width ∧ p.x + p.width > block.x ∧
       p.y + p.height ≥ block.y ∧ p.y + p.height ≤ block.y + 10 + p.vy ∧
       p.vy ≥ 0 then
      setPlayer s i { p with y := block.y - p.height, vy := 0, onGround := true }
    else s

/-- One step of the `enemies.forEach` nested inside the head-butt branch
(src/index.tsx lines 685-692): flip a resting unflipped enemy within the
horizontal hit window and award 50 points. -/
def headbuttEnemyStep (i : ℕ) (qy hitCenterX : ℚ) (s : GameState) (j : ℕ) :
    GameState :=
  match s.players[i]?, s.enemies[j]? with
  | some p, some e =>
    if e.isFlipped = false ∧ |e.y + e.height - qy| < 10 ∧
       e.x < hitCenterX + 20 ∧ e.x + e.width > hitCenterX - 20 then
      let s := { s with enemies := s.enemies.set j e.flip }
      let ph := p.addScore 50 s.highScore
      { s with players := s.players.set i ph.1, highScore := ph.2 }
    else s
  | _, _ => s

/-- The landing half of one platform iteration for player `i`
(src/index.tsx lines 670-678), accumulating the `onAnyPlatform` /
`isCurrentlyOnFrozenPlatform` locals. -/
def platformLandStep (i : ℕ) (q : Platform) (acc : GameState × Bool × Bool) :
    GameState × Bool × Bool :=
  let s := acc.1
  match s.players[i]? with
  | none => acc
  | some p =>
    if p.x < q.x + q.width ∧ p.x + p.width > q.x ∧
       p.y + p.height ≥ q.y ∧ p.y + p.height ≤ q.y + q.height + p.vy ∧
       p.vy ≥ 0 then
      let p := { p with y := q.y - p.height, vy := 0, onGround := true }
      let p := { p with x := p.x + q.vx }
      (setPlayer s i p, true, if q.isFrozen = true then true else acc.2.2)
    else acc

/-- The head-butt half of one platform iteration for player `i`
(src/index.tsx lines 680-693): pop below the platform and flip resting
enemies in the hit window. -/
def platformHeadbuttStep (i : ℕ) (q : Platform) (s : GameState) : GameState :=
  match s.players[i]? with
  | none => s
  | some p =>
    if p.x < q.x + q.width ∧ p.x + p.width > q.x ∧
       p.y > q.y ∧ p.y ≤ q.y + q.height ∧ p.vy < 0 then
      let p := { p with y := q.y + q.height, vy := 0 }
      let s := setPlayer s i p
      let hitCenterX := p.x + p.width / 2
      (List.range s.enemies.length).foldl (headbuttEnemyStep i q.y hitCenterX) s
    else s

/-- One platform of the `platforms.forEach` for player `i` (src/index.tsx
lines 669-694): landing check then head-butt check. -/
def platformStep (i : ℕ) (acc : GameState × Bool × Bool) (q : Platform) :
    GameState × Bool × Bool :=
  let acc := platformLandStep i q acc
  (platformHeadbuttStep i q acc.1, acc.2.1, acc.2.2)

/-- Phase 2 for player `i`: the whole platform loop plus the final
`player.onGround = onAnyPlatform; player.onFrozenPlatform = ...` latch
(src/index.tsx lines 667-696). -/
def playerPlatformsPhase (s : GameState) : ℕ → GameState := fun i =>
  match s.players[i]? with
  | none => s
  | some p =>
    let acc := s.platforms.foldl (platformStep i) (s, p.onGround, false)
    match acc.1.players[i]? with
    | none => acc.1
    | some p2 =>
      setPlayer acc.1 i
        { p2 with onGround := acc.2.1, onFrozenPlatform := acc.2.2 }

/-- Phase 3 for player `i`: hitting the explosive block from below
(src/index.tsx lines 698-704).  Not gated on `usesLeft`; the `hit()` call
itself is the guard. -/
def playerBlockUnderside (s : GameState) (i : ℕ) : GameState :=
  match s.players[i]? with
  | none => s
  | some p =>
    let block := s.explosiveBlock
    if p.x < block.x + block.width ∧ p.x + p.width > block.x ∧
       p.y > block.y ∧ p.y ≤ block.y + block.height ∧ p.vy < 0 then
      hitBlock (setPlayer s i { p with y := block.y + block.height, vy := 0 })
    else s

/-- One step of the player-vs-enemies `forEach` (src/index.tsx lines
707-718) for player `i` and roster index `k`: a flipped enemy is spliced
out, bursts into 20 particles and awards 200 points; an upright enemy kills
the player. -/
def playerEnemyStep (i : ℕ) (s : GameState) (k : ℕ) : GameState :=
  match s.players[i]?, s.enemies[k]? with
  | some p, some e =>
    if p.x < e.x + e.width ∧ p.x + p.width > e.x ∧
       p.y < e.y + e.height ∧ p.y + p.height > e.y then
      if e.isFlipped = true then
        let s := { s with enemies := s.enemies.eraseIdx k }
        let pe := mkParticles s.env 20 e.x e.y e.sprite
        let s := { s with particles := s.particles ++ pe.1, env := pe.2 }
        let ph := p.addScore 200 s.highScore
        { s with players := s.players.set i ph.1, highScore := ph.2 }
      else dieAt s i
    else s
  | _, _ => s

/-- Phase 4 for player `i`: the player-vs-enemies loop; JS `forEach`
captures the roster length up front and skips indices past the end of the
shrinking array. -/
def playerEnemiesPhase (s : GameState) (i : ℕ) : GameState :=
  (List.range s.enemies.length).foldl (playerEnemyStep i) s

/-- The per-player body of `handleCollisions` (src/index.tsx lines
653-719), with the early return for dead players. -/
def handlePlayer (s : GameState) (i : ℕ) : GameState :=
  match s.players[i]? with
  | none => s
  | some p =>
    if p.isDead = true then s
    else
      let s := playerBlockLand s i
      let s := playerPlatformsPhase s i
      let s := playerBlockUnderside s i
      playerEnemiesPhase s i

/-- One inner iteration of the enemy-vs-enemy bounce loop (src/index.tsx
lines 722-745): swap horizontal velocities and nudge apart. -/
def enemyPairStep (es : List Enemy) (i j : ℕ) : List Enemy :=
  match es[i]?, es[j]? with
  | some e1, some e2 =>
    if e1.x < e2.x + e2.width ∧ e1.x + e1.width > e2.x ∧
       e1.y < e2.y + e2.height ∧ e1.y + e1.height > e2.y then
      if e1.isFlipped = false ∧ e2.isFlipped = false ∧
         e1.onGround = true ∧ e2.onGround = true then
        let e1' := { e1 with vx := e2.vx }
        let e2' := { e2 with vx := e1.vx }
        let pair :=
          if e1.x < e2.x then ({ e1' with x := e1'.x - 1 }, { e2' with x := e2'.x + 1 })
          else ({ e1' with x := e1'.x + 1 }, { e2' with x := e2'.x - 1 })
        (es.set i pair.1).set j pair.2
      else es
    else es
  | _, _ => es

/-- The enemy-vs-enemy double loop (src/index.tsx lines 722-745); the
roster length is unchanged throughout this phase. -/
def enemyEnemyPhase (es : List Enemy) : List Enemy :=
  (List.range es.length).foldl (fun es i =>
    (List.range es.length).foldl (fun es j =>
      if i < j then enemyPairStep es i j else es) es) es

/-- Source `handleCollisions()` (src/index.tsx lines 652-746). -/
def handleCollisions (s : GameState) : GameState :=
  let s := (List.range s.players.length).foldl handlePlayer s
  { s with enemies := enemyEnemyPhase s.enemies }

/-! ### Enemy constructors (src/index.tsx lines 273-368) -/

/-- The base `Enemy` constructor (src/index.tsx lines 194-206). -/
def Enemy.mkBase (x y width height : ℚ) (sprite : String) : Enemy :=
  { x := x, y := y, width := width, height := height, vx := 0, vy := 0,
    sprite := sprite, isFlipped := false, flipTimer := 0, onGround := false,
    hitAnimationTimer := 0, kind := .basic }

/-- Source `new BasicEnemy(x, y)` (src/index.tsx lines 273-277). -/
def mkBasicEnemy (env : Env) (x y : ℚ) : Enemy × Env :=
  let (d, env) := randDir env
  ({ Enemy.mkBase x y 36 36 "👾" with vx := d * ENEMY_SPEED, kind := .basic }, env)

/-- Source `new FastEnemy(x, y)` (src/index.tsx lines 284-288). -/
def mkFastEnemy (env : Env) (x y : ℚ) : Enemy × Env :=
  let (d, env) := randDir env
  ({ Enemy.mkBase x y 36 36 "👻" with vx := d * ENEMY_SPEED * 1.8, kind := .fast }, env)

/-- Source `new JumpingEnemy(x, y)` (src/index.tsx lines 295-301). -/
def mkJumpingEnemy (env : Env) (x y : ℚ) : Enemy × Env :=
  let (d, env) := randDir env
  let (c, env) := randomInt env 80 200
  ({ Enemy.mkBase x y 36 36 "👽" with
     vx := d * ENEMY_SPEED * 0.8, kind := .jumping c }, env)

/-- Source `new IceBomberEnemy(0, 0, platform)` (src/index.tsx lines 314-324),
with the guarded platform given as an index `pi` into the platform list. -/
def mkIceBomberEnemy (env : Env) (pi : ℕ) (p : Platform) : Enemy × Env :=
  let (t, env) := randomInt env 3000 5000
  ({ Enemy.mkBase 0 0 36 36 "💣" with
     vx := 0, kind := .iceBomber (t : ℚ) (some pi),
     y := p.y - 36, x := p.x + p.width / 2 - 36 / 2 }, env)

/-- Source `new ToughEnemy(x, y)` (src/index.tsx lines 346-352). -/
def mkToughEnemy (env : Env) (x y : ℚ) : Enemy × Env :=
  let (d, env) := randDir env
  ({ Enemy.mkBase x y 40 40 "👹" with
     vx := d * ENEMY_SPEED * 0.7, kind := .tough 2 }, env)

/-! ### Level layouts and setup (src/index.tsx lines 536-627) -/

/-- Source `levelLayouts` (src/index.tsx lines 536-567); the out-of-range arm is
unreachable because the index is always reduced mod 4. -/
def levelLayouts (idx : ℕ) : List Platform :=
  match idx with
  | 0 =>
    [Platform.mk' 0 550 250, Platform.mk' (GAME_WIDTH - 250) 550 250,
     Platform.mk' 300 400 360, Platform.mk' 0 250 350,
     Platform.mk' (GAME_WIDTH - 350) 250 350]
  | 1 =>
    [Platform.mk' 0 580 200, Platform.mk' (GAME_WIDTH - 200) 580 200,
     Platform.mk' 250 450 150, Platform.mk' (GAME_WIDTH - 400) 450 150,
     Platform.mk' 0 300 200, Platform.mk' (GAME_WIDTH - 200) 300 200,
     Platform.mk' 300 180 360]
  | 2 =>
    [Platform.mk' 0 550 200, Platform.mk' (GAME_WIDTH - 200) 550 200,
     (Platform.mk' 380 400 200).makeMobile 1 100, Platform.mk' 0 250 300,
     Platform.mk' (GAME_WIDTH - 300) 250 300]
  | 3 =>
    [(Platform.mk' 0 580 150).makeMobile 1.2 80,
     (Platform.mk' (GAME_WIDTH - 150) 580 150).makeMobile (-1.2) 80,
     Platform.mk' 300 420 360,
     (Platform.mk' 0 250 350).makeMobile 1.5 150,
     (Platform.mk' (GAME_WIDTH - 350) 250 350).makeMobile (-1.5) 150]
  | _ => []

/-- Is the enemy an `IceBomberEnemy` guarding platform index `pi`
(the `e.platform === p` reference test of src/index.tsx line 612)? -/
def Enemy.guards (e : Enemy) (pi : ℕ) : Bool :=
  match e.kind with
  | .iceBomber _ (some pj) => pj = pi
  | _ => false

/-- One iteration of the enemy-spawning loop in `setupLevel`
(src/index.tsx lines 602-626). -/
def spawnEnemy (platforms : List Platform) (finalLevel : ℤ)
    (acc : List Enemy × Env) : List Enemy × Env :=
  let (es, env) := acc
  let (sj, env) := randomInt env 0 ((spawnPoints.length : ℚ) - 1)
  let sp := spawnPoints.getD sj.toNat ⟨150, 60⟩
  let (enemyType, env) := env.next
  if finalLevel ≥ 25 ∧ enemyType < 0.15 then
    let (e, env) := mkToughEnemy env sp.x sp.y
    (es ++ [e], env)
  else if finalLevel ≥ 20 ∧ enemyType < 0.3 then
    let validPlatforms := (platforms.enum).filter fun ip =>
      ip.2.isFloor = false ∧ ip.2.vx = 0 ∧ (es.any fun e => e.guards ip.1) = false
    if validPlatforms.length > 0 then
      let (pj, env) := randomInt env 0 ((validPlatforms.length : ℚ) - 1)
      let ip := validPlatforms.getD pj.toNat (0, Platform.mk' 0 0 0)
      let (e, env) := mkIceBomberEnemy env ip.1 ip.2
      (es ++ [e], env)
    else
      let (e, env) := mkBasicEnemy env sp.x sp.y
      (es ++ [e], env)
  else if finalLevel ≥ 10 ∧ enemyType < 0.5 then
    let (e, env) := mkJumpingEnemy env sp.x sp.y
    (es ++ [e], env)
  else if finalLevel ≥ 5 ∧ enemyType < 0.75 then
    let (e, env) := mkFastEnemy env sp.x sp.y
    (es ++ [e], env)
  else
    let (e, env) := mkBasicEnemy env sp.x sp.y
    (es ++ [e], env)

/-- Source `setupLevel(levelNum)` (src/index.tsx lines 589-627).  The floor
`%`/`Math.floor` arithmetic matches JS for the reachable `levelNum >= 1`. -/
def setupLevel (s : GameState) (levelNum : ℤ) : GameState :=
  let layoutIndex := (Int.fdiv (levelNum - 1) 4 % 4).toNat
  let platforms := Platform.mk' 0 (GAME_HEIGHT - 40) GAME_WIDTH 40 true ::
    levelLayouts layoutIndex
  let platforms := platforms.map fun p => { p with isFrozen := false }
  let finalLevel := min levelNum 50
  let enemyCount := (2 + Int.fdiv finalLevel 2).toNat
  let spawned := (List.range enemyCount).foldl
    (fun acc _ => spawnEnemy platforms finalLevel acc) ([], s.env)
  { s with platforms := platforms, enemies := spawned.1,
           explosiveBlock := s.explosiveBlock.reset, env := spawned.2 }

/-! ### The tick function (src/index.tsx `update`, lines 629-650) -/

/-- The entity-advance phases of a `playing` tick (src/index.tsx lines
631-634): players, enemies, platforms, explosive block, in that order. -/
def preUpdatePhases (s : GameState) : GameState :=
  let s := { s with players := s.players.map (Player.update s.keys) }
  let s := enemiesUpdatePhase s
  let s := { s with platforms := s.platforms.map Platform.update }
  { s with explosiveBlock := s.explosiveBlock.update }

/-- The `playing` branch of `update()` (src/index.tsx lines 630-640):
advance entities, resolve collisions, then trigger the level transition
when the roster is empty and someone is alive. -/
def updatePlaying (s : GameState) : GameState :=
  let t := handleCollisions (preUpdatePhases s)
  if t.enemies.length = 0 ∧ (t.players.any fun p => p.isDead = false) = true then
    { t with level := t.level + 1, gameState := Mode.levelTransition,
             levelTransitionTimer := LEVEL_TRANSITION_TIME }
  else t

/-- The `levelTransition` branch of `update()` (src/index.tsx lines
641-647). -/
def updateTransition (s : GameState) : GameState :=
  let s := { s with levelTransitionTimer := s.levelTransitionTimer - 1000 / 60 }
  if s.levelTransitionTimer ≤ 0 then
    { setupLevel s s.level with gameState := Mode.playing }
  else s

/-- The unconditional particle advance and pruning at the end of every tick
(src/index.tsx lines 648-649). -/
def postParticles (s : GameState) : GameState :=
  let s := { s with particles := s.particles.map Particle.update }
  { s with particles := s.particles.filter fun p => p.life > 0 }

/-- Source `update()` (src/index.tsx lines 629-650): one simulation tick. -/
def update (s : GameState) : GameState :=
  postParticles
    (if s.gameState = Mode.playing then updatePlaying s
     else if s.gameState = Mode.levelTransition then updateTransition s
     else s)

/-! ## Proof infrastructure -/

/-- Membership from an index lookup. -/
lemma mem_of_getElemQ {α : Type} {l : List α} {i : ℕ} {a : α}
    (h : l[i]? = some a) : a ∈ l := by
  obtain ⟨hlt, he⟩ := List.getElem?_eq_some.mp h
  exact he ▸ l.getElem_mem hlt

lemma lt_length_of_getElemQ {α : Type} {l : List α} {i : ℕ} {a : α}
    (h : l[i]? = some a) : i < l.length :=
  (List.getElem?_eq_some.mp h).1

/-- Overwriting an entry with one that agrees on `f` does not change
`List.all f`. -/
lemma all_set_congr {α : Type} (f : α → Bool) :
    ∀ (l : List α) (i : ℕ) {p q : α}, l[i]? = some p → f q = f p →
      (l.set i q).all f = l.all f := by
  intro l
  induction l with
  | nil => intro i p q h _; simp at h
  | cons a l ih =>
    intro i p q hp hq
    cases i with
    | zero =>
      simp only [List.getElem?_cons_zero, Option.some.injEq] at hp
      subst hp
      simp [hq]
    | succ n =>
      simp only [List.getElem?_cons_succ] at hp
      simp [ih n hp hq]

/-- A list containing a live player is not all-dead. -/
lemma all_isDead_false_of_alive {l : List Player} {i : ℕ} {q : Player}
    (h : l[i]? = some q) (hq : q.isDead = false) :
    (l.all fun p => p.isDead) = false := by
  by_contra hc
  have hall : (l.all fun p => p.isDead) = true := by
    cases hb : l.all fun p => p.isDead
    · exact absurd hb hc
    · rfl
  have := List.all_eq_true.mp hall q (mem_of_getElemQ h)
  rw [hq] at this
  exact Bool.false_ne_true this

/-- An all-dead list has no live member. -/
lemma not_any_alive_of_all_dead {l : List Player}
    (hall : (l.all fun p => p.isDead) = true)
    (hany : (l.any fun p => p.isDead = false) = true) : False := by
  obtain ⟨q, hq, hq2⟩ := List.any_eq_true.mp hany
  have := List.all_eq_true.mp hall q hq
  rw [of_decide_eq_true hq2] at this
  exact Bool.false_ne_true this

lemma scoresOf_set_le {l : List Player} {i : ℕ} {p q : Player}
    (hp : l[i]? = some p) (hs : p.score ≤ q.score) (j : ℕ) :
    scoresOf l j ≤ scoresOf (l.set i q) j := by
  unfold scoresOf
  by_cases hij : j = i
  · subst hij
    rw [List.getElem?_set_eq_of_lt q (lt_length_of_getElemQ hp), hp]
    exact hs
  · rw [List.getElem?_set_ne (fun he => hij he.symm)]

lemma scoresOf_congr {l l' : List Player} (h : l' = l) (j : ℕ) :
    scoresOf l' j = scoresOf l j := by rw [h]

/-- The game-over coherence invariant maintained by one `playing` tick:
whenever every player is dead the game-flow state has already moved to
`gameOver` (via `checkGameOver`), and the state is still `playing`
otherwise. -/
def GameOverInv (s : GameState) : Prop :=
  ((s.players.all fun p => p.isDead) = true → s.gameState = Mode.gameOver) ∧
  (s.gameState = Mode.playing ∨ s.gameState = Mode.gameOver)

/-- What a single collision-resolution step may do to the observables we
track: it keeps the level and the player-roster length, transports the
game-over coherence invariant, and never decreases any player's score. -/
def CollOK (s t : GameState) : Prop :=
  t.level = s.level ∧ t.players.length = s.players.length ∧
  (GameOverInv s → GameOverInv t) ∧ ∀ i, scoreAt s i ≤ scoreAt t i

lemma collOK_refl (s : GameState) : CollOK s s :=
  ⟨rfl, rfl, id, fun _ => le_refl _⟩

lemma collOK_trans {a b c : GameState} (h1 : CollOK a b) (h2 : CollOK b c) :
    CollOK a c :=
  ⟨h2.1.trans h1.1, h2.2.1.trans h1.2.1, fun h => h2.2.2.1 (h1.2.2.1 h),
   fun i => (h1.2.2.2 i).trans (h2.2.2.2 i)⟩

/-- A step that leaves players, mode and level alone is `CollOK`. -/
lemma collOK_keep {s t : GameState} (hpl : t.players = s.players)
    (hmode : t.gameState = s.gameState) (hlevel : t.level = s.level) :
    CollOK s t := by
  refine ⟨hlevel, by rw [hpl], fun hinv => ?_, fun i => ?_⟩
  · exact ⟨fun h => hmode ▸ hinv.1 (by rwa [hpl] at h), hmode ▸ hinv.2⟩
  · unfold scoreAt
    rw [hpl]

/-- A step that only rewrites player `i` to a player with the same death
flag and at least the same score is `CollOK`. -/
lemma collOK_of_set {s t : GameState} {i : ℕ} {p q : Player}
    (hp : s.players[i]? = some p)
    (ht : t.players = s.players.set i q)
    (hmode : t.gameState = s.gameState)
    (hlevel : t.level = s.level)
    (hd : q.isDead = p.isDead)
    (hs : p.score ≤ q.score) : CollOK s t := by
  refine ⟨hlevel, by rw [ht, List.length_set], fun hinv => ?_, fun j => ?_⟩
  · constructor
    · intro hall
      rw [ht, all_set_congr _ _ _ hp hd] at hall
      exact hmode ▸ hinv.1 hall
    · exact hmode ▸ hinv.2
  · unfold scoreAt
    rw [ht]
    exact scoresOf_set_le hp hs j

/-- Folding `CollOK` steps along a list. -/
lemma collOK_foldl {β : Type} (f : GameState → β → GameState)
    (hf : ∀ s b, CollOK s (f s b)) :
    ∀ (l : List β) (s : GameState), CollOK s (l.foldl f s) := by
  intro l
  induction l with
  | nil => intro s; exact collOK_refl s
  | cons b l ih =>
    intro s
    exact collOK_trans (hf s b) (ih (f s b))


/-! Small projection facts about `Player.addScore` and `checkGameOver`. -/

lemma addScore_isDead (p : Player) (pts hs : ℤ) :
    ((p.addScore pts hs).1).isDead = p.isDead := by
  unfold Player.addScore
  dsimp only
  split <;> rfl

lemma addScore_score (p : Player) (pts hs : ℤ) :
    ((p.addScore pts hs).1).score = p.score + pts := by
  unfold Player.addScore
  dsimp only
  split <;> rfl

lemma checkGameOver_players (s : GameState) :
    (checkGameOver s).players = s.players := by
  unfold checkGameOver; split <;> rfl

lemma checkGameOver_level (s : GameState) :
    (checkGameOver s).level = s.level := by
  unfold checkGameOver; split <;> rfl

/-- Source `checkGameOver` establishes the game-over coherence invariant
outright (given only that the mode is `playing` or `gameOver`). -/
lemma checkGameOver_inv {s : GameState}
    (h2 : s.gameState = Mode.playing ∨ s.gameState = Mode.gameOver) :
    GameOverInv (checkGameOver s) := by
  unfold checkGameOver
  split
  · exact ⟨fun _ => rfl, Or.inr rfl⟩
  · rename_i hfalse
    exact ⟨fun hall => absurd hall hfalse, h2⟩

/-- Source `Player.die()` is a `CollOK` step: it keeps level, roster length and
scores, and (re-)establishes the game-over invariant via
`checkGameOver`. -/
lemma dieAt_collOK (s : GameState) (i : ℕ) : CollOK s (dieAt s i) := by
  unfold dieAt
  cases hp : s.players[i]? with
  | none => exact collOK_refl s
  | some p =>
    dsimp only
    split
    · exact collOK_refl s
    · rename_i hd
      split
      · -- lives exhausted: mark dead and run checkGameOver
        rename_i hl
        refine ⟨?_, ?_, ?_, ?_⟩
        · rw [checkGameOver_level]
          rfl
        · rw [checkGameOver_players]
          dsimp [setPlayer]
          rw [List.set_set, List.length_set]
        · intro hinv
          exact checkGameOver_inv hinv.2
        · intro j
          unfold scoreAt
          rw [checkGameOver_players]
          dsimp [setPlayer]
          rw [List.set_set]
          exact scoresOf_set_le hp (by exact le_refl _) j
      · -- respawn
        rename_i hl
        have hpd : p.isDead = false := by
          cases hb : p.isDead
          · rfl
          · exact absurd hb hd
        refine ⟨rfl, ?_, ?_, ?_⟩
        · dsimp [setPlayer]
          rw [List.set_set, List.length_set]
        · intro hinv
          refine ⟨?_, hinv.2⟩
          intro hall
          exfalso
          dsimp [setPlayer] at hall
          rw [List.set_set] at hall
          have hmem := List.all_eq_true.mp hall _
            (mem_of_getElemQ (List.getElem?_set_eq_of_lt _ (lt_length_of_getElemQ hp)))
          have hmem2 : p.isDead = true := hmem
          rw [hpd] at hmem2
          exact Bool.false_ne_true hmem2
        · intro j
          unfold scoreAt
          dsimp [setPlayer]
          rw [List.set_set]
          exact scoresOf_set_le hp (by exact le_refl _) j

/-! Per-phase `CollOK` lemmas for the collision pass. -/

lemma hitBlock_collOK (s : GameState) : CollOK s (hitBlock s) := by
  unfold hitBlock
  dsimp only
  split
  · exact collOK_keep rfl rfl rfl
  · exact collOK_refl s

lemma playerBlockLand_collOK (s : GameState) (i : ℕ) :
    CollOK s (playerBlockLand s i) := by
  unfold playerBlockLand
  cases hp : s.players[i]? with
  | none => exact collOK_refl s
  | some p =>
    dsimp only
    split
    · apply collOK_of_set hp
      · rfl
      · rfl
      · rfl
      · rfl
      · exact le_refl _
    · exact collOK_refl s

lemma headbuttEnemyStep_collOK (i : ℕ) (qy cx : ℚ) (s : GameState) (j : ℕ) :
    CollOK s (headbuttEnemyStep i qy cx s j) := by
  unfold headbuttEnemyStep
  cases hp : s.players[i]? with
  | none => exact collOK_refl s
  | some p =>
    cases he : s.enemies[j]? with
    | none => exact collOK_refl s
    | some e =>
      dsimp only
      split
      · apply collOK_of_set hp
        · rfl
        · rfl
        · rfl
        · exact addScore_isDead p 50 _
        · rw [addScore_score]
          omega
      · exact collOK_refl s

lemma platformHeadbuttStep_collOK (i : ℕ) (q : Platform) (s : GameState) :
    CollOK s (platformHeadbuttStep i q s) := by
  unfold platformHeadbuttStep
  cases hp : s.players[i]? with
  | none => exact collOK_refl s
  | some p =>
    dsimp only
    split
    · refine collOK_trans ?_ (collOK_foldl _ (headbuttEnemyStep_collOK i q.y _) _ _)
      apply collOK_of_set hp
      · rfl
      · rfl
      · rfl
      · rfl
      · exact le_refl _
    · exact collOK_refl s

lemma platformLandStep_collOK (i : ℕ) (q : Platform)
    (acc : GameState × Bool × Bool) :
    CollOK acc.1 (platformLandStep i q acc).1 := by
  unfold platformLandStep
  dsimp only
  cases hp : acc.1.players[i]? with
  | none => exact collOK_refl _
  | some p =>
    dsimp only
    split
    · apply collOK_of_set hp
      · rfl
      · rfl
      · rfl
      · rfl
      · exact le_refl _
    · exact collOK_refl _

lemma platformStep_collOK (i : ℕ) (acc : GameState × Bool × Bool)
    (q : Platform) : CollOK acc.1 (platformStep i acc q).1 := by
  unfold platformStep
  exact collOK_trans (platformLandStep_collOK i q acc)
    (platformHeadbuttStep_collOK i q _)

/-- Folding `CollOK` steps along a list, tracking only the state component
of a product accumulator. -/
lemma collOK_foldl_fst {β γ : Type} (f : (GameState × γ) → β → (GameState × γ))
    (hf : ∀ a b, CollOK a.1 (f a b).1) :
    ∀ (l : List β) (a : GameState × γ), CollOK a.1 (l.foldl f a).1 := by
  intro l
  induction l with
  | nil => intro a; exact collOK_refl _
  | cons b l ih =>
    intro a
    exact collOK_trans (hf a b) (ih (f a b))

lemma playerPlatformsPhase_collOK (s : GameState) (i : ℕ) :
    CollOK s (playerPlatformsPhase s i) := by
  unfold playerPlatformsPhase
  cases hp : s.players[i]? with
  | none => exact collOK_refl s
  | some p =>
    dsimp only
    have hfold := collOK_foldl_fst (platformStep i) (platformStep_collOK i)
      s.platforms (s, p.onGround, false)
    cases hp2 : (s.platforms.foldl (platformStep i) (s, p.onGround, false)).1.players[i]? with
    | none => exact hfold
    | some p2 =>
      refine collOK_trans hfold ?_
      apply collOK_of_set hp2
      · rfl
      · rfl
      · rfl
      · rfl
      · exact le_refl _

lemma playerBlockUnderside_collOK (s : GameState) (i : ℕ) :
    CollOK s (playerBlockUnderside s i) := by
  unfold playerBlockUnderside
  cases hp : s.players[i]? with
  | none => exact collOK_refl s
  | some p =>
    dsimp only
    split
    · refine collOK_trans ?_ (hitBlock_collOK _)
      apply collOK_of_set hp
      · rfl
      · rfl
      · rfl
      · rfl
      · exact le_refl _
    · exact collOK_refl s

lemma playerEnemyStep_collOK (i : ℕ) (s : GameState) (k : ℕ) :
    CollOK s (playerEnemyStep i s k) := by
  unfold playerEnemyStep
  cases hp : s.players[i]? with
  | none => exact collOK_refl s
  | some p =>
    cases he : s.enemies[k]? with
    | none => exact collOK_refl s
    | some e =>
      dsimp only
      split
      · split
        · apply collOK_of_set hp
          · rfl
          · rfl
          · rfl
          · exact addScore_isDead p 200 _
          · rw [addScore_score]
            omega
        · exact dieAt_collOK s i
      · exact collOK_refl s

lemma playerEnemiesPhase_collOK (s : GameState) (i : ℕ) :
    CollOK s (playerEnemiesPhase s i) := by
  unfold playerEnemiesPhase
  exact collOK_foldl _ (playerEnemyStep_collOK i) _ _

lemma handlePlayer_collOK (s : GameState) (i : ℕ) :
    CollOK s (handlePlayer s i) := by
  unfold handlePlayer
  cases hp : s.players[i]? with
  | none => exact collOK_refl s
  | some p =>
    dsimp only
    split
    · exact collOK_refl s
    · exact collOK_trans (playerBlockLand_collOK s i)
        (collOK_trans (playerPlatformsPhase_collOK _ i)
          (collOK_trans (playerBlockUnderside_collOK _ i)
            (playerEnemiesPhase_collOK _ i)))

/-- The whole collision pass is a `CollOK` step. -/
lemma handleCollisions_collOK (s : GameState) : CollOK s (handleCollisions s) := by
  unfold handleCollisions
  exact collOK_trans (collOK_foldl _ handlePlayer_collOK _ _)
    (collOK_keep rfl rfl rfl)

/-! Frame lemmas for the entity-advance phases (they never touch the
game-flow mode, the level counter, or any death flag). -/

lemma Player.update_isDead (keys : String → Bool) (p : Player) :
    (Player.update keys p).isDead = p.isDead := by
  unfold Player.update
  split <;> rfl

lemma all_isDead_map_update (keys : String → Bool) (l : List Player) :
    ((l.map (Player.update keys)).all fun p => p.isDead) =
      (l.all fun p => p.isDead) := by
  induction l with
  | nil => rfl
  | cons a l ih => simp [Player.update_isDead, ih]

lemma updateEnemyAt_frame (s : GameState) (k : ℕ) :
    (updateEnemyAt s k).players = s.players ∧
    (updateEnemyAt s k).gameState = s.gameState ∧
    (updateEnemyAt s k).level = s.level := by
  unfold updateEnemyAt explodeAt
  cases he : s.enemies[k]? with
  | none => exact ⟨rfl, rfl, rfl⟩
  | some e =>
    dsimp only
    cases hk : e.kind with
    | basic => exact ⟨rfl, rfl, rfl⟩
    | fast => exact ⟨rfl, rfl, rfl⟩
    | jumping jc => exact ⟨rfl, rfl, rfl⟩
    | tough h => exact ⟨rfl, rfl, rfl⟩
    | iceBomber t pf =>
      dsimp only
      split
      · cases pf with
        | none => exact ⟨rfl, rfl, rfl⟩
        | some pi =>
          dsimp only
          split <;> exact ⟨rfl, rfl, rfl⟩
      · exact ⟨rfl, rfl, rfl⟩

lemma foldl_frame {β : Type} (f : GameState → β → GameState)
    (hf : ∀ s b, (f s b).players = s.players ∧
      (f s b).gameState = s.gameState ∧ (f s b).level = s.level) :
    ∀ (l : List β) (s : GameState),
      (l.foldl f s).players = s.players ∧
      (l.foldl f s).gameState = s.gameState ∧
      (l.foldl f s).level = s.level := by
  intro l
  induction l with
  | nil => intro s; exact ⟨rfl, rfl, rfl⟩
  | cons b l ih =>
    intro s
    obtain ⟨h1, h2, h3⟩ := ih (f s b)
    obtain ⟨g1, g2, g3⟩ := hf s b
    exact ⟨h1.trans g1, h2.trans g2, h3.trans g3⟩

lemma enemiesUpdatePhase_frame (s : GameState) :
    (enemiesUpdatePhase s).players = s.players ∧
    (enemiesUpdatePhase s).gameState = s.gameState ∧
    (enemiesUpdatePhase s).level = s.level := by
  unfold enemiesUpdatePhase
  exact foldl_frame _ (fun s k => updateEnemyAt_frame s k) _ _

lemma preUpdatePhases_frame (s : GameState) :
    ((preUpdatePhases s).players.all fun p => p.isDead) =
      (s.players.all fun p => p.isDead) ∧
    (preUpdatePhases s).gameState = s.gameState ∧
    (preUpdatePhases s).level = s.level := by
  unfold preUpdatePhases
  obtain ⟨h1, h2, h3⟩ :=
    enemiesUpdatePhase_frame { s with players := s.players.map (Player.update s.keys) }
  refine ⟨?_, h2, h3⟩
  show ((enemiesUpdatePhase _).players.all _) = _
  rw [h1]
  exact all_isDead_map_update s.keys s.players

/-! ## Claim C1 -/

/-- Claim **C1.**  After one tick executed in the `playing` state (with at least
one player alive at the start of the tick, as is the case whenever play is
in progress), the game-flow state becomes `levelTransition` — with the
level counter incremented and the transition timer set to
`LEVEL_TRANSITION_TIME` — if and only if the enemy roster is empty and at
least one player is not dead at the end of the collision pass; and if every
player is dead at the end of the tick, the state is `gameOver` instead. -/
theorem levelTransition_iff_cleared_and_alive (s : GameState)
    (h1 : s.gameState = Mode.playing)
    (h2 : (s.players.any fun p => p.isDead = false) = true) :
    ((update s).gameState = Mode.levelTransition ↔
      ((update s).enemies = [] ∧
        ((update s).players.any fun p => p.isDead = false) = true)) ∧
    ((update s).gameState = Mode.levelTransition →
      (update s).level = s.level + 1 ∧
      (update s).levelTransitionTimer = LEVEL_TRANSITION_TIME) ∧
    (((update s).players.all fun p => p.isDead) = true →
      (update s).gameState = Mode.gameOver) := by
  have hup : update s = postParticles (updatePlaying s) := by
    unfold update
    rw [if_pos h1]
  have hpre := preUpdatePhases_frame s
  have hinv : GameOverInv (preUpdatePhases s) := by
    constructor
    · intro hall
      rw [hpre.1] at hall
      exact (not_any_alive_of_all_dead hall h2).elim
    · rw [hpre.2.1]
      exact Or.inl h1
  have hcoll := handleCollisions_collOK (preUpdatePhases s)
  have hinvt : GameOverInv (handleCollisions (preUpdatePhases s)) :=
    hcoll.2.2.1 hinv
  have hlevel : (handleCollisions (preUpdatePhases s)).level = s.level :=
    hcoll.1.trans hpre.2.2
  rw [hup]
  unfold updatePlaying
  by_cases hc : (handleCollisions (preUpdatePhases s)).enemies.length = 0 ∧
      ((handleCollisions (preUpdatePhases s)).players.any fun p => p.isDead = false) = true
  · rw [if_pos hc]
    refine ⟨?_, ?_, ?_⟩
    · constructor
      · intro _
        exact ⟨List.length_eq_zero.mp hc.1, hc.2⟩
      · intro _
        rfl
    · intro _
      constructor
      · show (handleCollisions (preUpdatePhases s)).level + 1 = s.level + 1
        rw [hlevel]
      · rfl
    · intro hall
      exact (not_any_alive_of_all_dead hall hc.2).elim
  · rw [if_neg hc]
    have hmode : (postParticles (handleCollisions (preUpdatePhases s))).gameState =
        (handleCollisions (preUpdatePhases s)).gameState := rfl
    refine ⟨?_, ?_, ?_⟩
    · constructor
      · intro hlt
        rw [hmode] at hlt
        rcases hinvt.2 with hpl | hgo
        · rw [hpl] at hlt
          exact absurd hlt (by simp)
        · rw [hgo] at hlt
          exact absurd hlt (by simp)
      · intro hboth
        exfalso
        apply hc
        constructor
        · have hemp : (handleCollisions (preUpdatePhases s)).enemies = [] := hboth.1
          rw [hemp]
          rfl
        · exact hboth.2
    · intro hlt
      rw [hmode] at hlt
      rcases hinvt.2 with hpl | hgo
      · rw [hpl] at hlt
        exact absurd hlt (by simp)
      · rw [hgo] at hlt
        exact absurd hlt (by simp)
    · intro hall
      rw [hmode]
      exact hinvt.1 hall

/-! Concrete fixtures used by witnesses. -/

def sampleEnv : Env := ⟨fun _ => 0, 0, fun _ => true⟩

/-- The player-1 object as built by `startGame` (src/index.tsx lines 81-101,
569-573), placed at a generic airborne position. -/
def samplePlayer : Player :=
  { id := 1, x := 100, y := 100, width := 40, height := 40, vx := 0, vy := 0,
    onGround := false, sprite := "🤖", onFrozenPlatform := false,
    controls := ⟨"a", "d", "w"⟩, isDead := false, score := 0,
    lives := LIVES_START, nextExtraLifeScore := EXTRA_LIFE_SCORE }

/-- A one-player world in `playing` mode with an empty enemy roster and the
mandatory floor platform. -/
def sampleState : GameState :=
  { highScore := 0, level := 1, players := [samplePlayer], enemies := [],
    platforms := [Platform.mk' 0 (GAME_HEIGHT - 40) GAME_WIDTH 40 true],
    particles := [], explosiveBlock := ExplosiveBlock.init,
    keys := fun _ => false, gameState := Mode.playing,
    levelTransitionTimer := 0, env := sampleEnv }

theorem levelTransition_iff_cleared_and_alive_witness :
    sampleState.gameState = Mode.playing ∧
    (sampleState.players.any fun p => p.isDead = false) = true ∧
    (((update sampleState).gameState = Mode.levelTransition ↔
      ((update sampleState).enemies = [] ∧
        ((update sampleState).players.any fun p => p.isDead = false) = true)) ∧
     ((update sampleState).gameState = Mode.levelTransition →
       (update sampleState).level = sampleState.level + 1 ∧
       (update sampleState).levelTransitionTimer = LEVEL_TRANSITION_TIME) ∧
     (((update sampleState).players.all fun p => p.isDead) = true →
       (update sampleState).gameState = Mode.gameOver)) :=
  ⟨rfl, by decide,
   levelTransition_iff_cleared_and_alive sampleState rfl (by decide)⟩

/-! ## Claim C2 -/

/-- Claim **C2.**  A single `addScore(points)` call grants at most one extra
life, and advances the `nextExtraLifeScore` threshold by exactly one
`EXTRA_LIFE_SCORE` step when the threshold is reached (and not at all
otherwise) — even when the increment crosses several multiples of
`EXTRA_LIFE_SCORE` at once, because the source tests the threshold once
rather than looping. -/
theorem addScore_at_most_one_life (p : Player) (points highScore : ℤ) :
    ((p.addScore points highScore).1.lives ≤ p.lives + 1) ∧
    (p.score + points ≥ p.nextExtraLifeScore →
      (p.addScore points highScore).1.lives = p.lives + 1 ∧
      (p.addScore points highScore).1.nextExtraLifeScore =
        p.nextExtraLifeScore + EXTRA_LIFE_SCORE) ∧
    (p.score + points < p.nextExtraLifeScore →
      (p.addScore points highScore).1.lives = p.lives ∧
      (p.addScore points highScore).1.nextExtraLifeScore =
        p.nextExtraLifeScore) := by
  unfold Player.addScore
  dsimp only
  split
  · rename_i hge
    exact ⟨show p.lives + 1 ≤ p.lives + 1 by omega, fun _ => ⟨rfl, rfl⟩,
      fun hlt => absurd hge (by omega)⟩
  · rename_i hlt
    exact ⟨show p.lives ≤ p.lives + 1 by omega, fun hge => absurd hge hlt,
      fun _ => ⟨rfl, rfl⟩⟩

theorem addScore_at_most_one_life_witness :
    samplePlayer.score + 50000 ≥ samplePlayer.nextExtraLifeScore ∧
    ((samplePlayer.addScore 50000 0).1.lives ≤ samplePlayer.lives + 1) ∧
    ((samplePlayer.addScore 50000 0).1.lives = samplePlayer.lives + 1 ∧
     (samplePlayer.addScore 50000 0).1.nextExtraLifeScore =
       samplePlayer.nextExtraLifeScore + EXTRA_LIFE_SCORE) :=
  ⟨by decide, (addScore_at_most_one_life samplePlayer 50000 0).1,
   (addScore_at_most_one_life samplePlayer 50000 0).2.1 (by decide)⟩

/-! ## Claim C4 -/

/-- The score-mutating simulation operations that run during one match:
the collision pass, a score award, a player death, and a level setup. -/
inductive SimOp where
  | collisions
  | addScore (i : ℕ) (points : ℤ)
  | die (i : ℕ)
  | setup (levelNum : ℤ)
deriving DecidableEq, Repr

/-- Source `player.addScore(points)` invoked on the player at index `i`, as a
whole-world operation (it also writes the global high score). -/
def addScoreAt (s : GameState) (i : ℕ) (points : ℤ) : GameState :=
  match s.players[i]? with
  | none => s
  | some p =>
    let ph := p.addScore points s.highScore
    { s with players := s.players.set i ph.1, highScore := ph.2 }

def applySimOp (s : GameState) : SimOp → GameState
  | .collisions => handleCollisions s
  | .addScore i points => addScoreAt s i points
  | .die i => dieAt s i
  | .setup levelNum => setupLevel s levelNum

/-- Every `addScore` in the source awards a nonnegative amount (50 or
200). -/
def SimOp.scoreArgNonneg : SimOp → Prop
  | .addScore _ points => 0 ≤ points
  | _ => True

instance (op : SimOp) : Decidable op.scoreArgNonneg := by
  cases op <;> dsimp [SimOp.scoreArgNonneg] <;> infer_instance

/-- Claim **C4.**  Across any sequence of simulation operations (collision
resolution, nonnegative score awards as in the source, deaths, level
setups), a player's score never decreases. -/
theorem score_monotone (s : GameState) (ops : List SimOp) (i : ℕ)
    (hops : ∀ op ∈ ops, op.scoreArgNonneg) :
    scoreAt s i ≤ scoreAt (ops.foldl applySimOp s) i := by
  induction ops generalizing s with
  | nil => exact le_refl _
  | cons op ops ih =>
    have hstep : scoreAt s i ≤ scoreAt (applySimOp s op) i := by
      cases op with
      | collisions => exact (handleCollisions_collOK s).2.2.2 i
      | addScore j points =>
        have hpt : 0 ≤ points := hops _ (List.mem_cons_self _ _)
        show scoreAt s i ≤ scoreAt (addScoreAt s j points) i
        unfold addScoreAt
        cases hp : s.players[j]? with
        | none => exact le_refl _
        | some p =>
          dsimp only
          unfold scoreAt
          refine scoresOf_set_le hp ?_ i
          rw [addScore_score]
          omega
      | die j => exact (dieAt_collOK s j).2.2.2 i
      | setup levelNum => exact le_refl (scoreAt s i)
    exact hstep.trans (ih _ (fun op hm => hops op (List.mem_cons_of_mem _ hm)))

theorem score_monotone_witness :
    (∀ op ∈ [SimOp.addScore 0 50, SimOp.die 0, SimOp.collisions,
      SimOp.setup 2], op.scoreArgNonneg) ∧
    scoreAt sampleState 0 ≤
      scoreAt ([SimOp.addScore 0 50, SimOp.die 0, SimOp.collisions,
        SimOp.setup 2].foldl applySimOp sampleState) 0 :=
  ⟨by decide, score_monotone sampleState _ 0 (by decide)⟩

/-! ## Claim C10 -/

/-- Claim **C10.**  Calling `die()` on a player whose `isDead` flag is already
set is a complete no-op: the whole world state — lives, score, position,
velocity, flags, particle list, game-flow state — is returned unchanged. -/
theorem die_noop_when_dead (s : GameState) (i : ℕ) (p : Player)
    (hp : s.players[i]? = some p) (hd : p.isDead = true) :
    dieAt s i = s := by
  unfold dieAt
  rw [hp]
  dsimp only
  rw [if_pos hd]

def sampleDeadPlayer : Player := { samplePlayer with isDead := true }

def sampleDeadState : GameState :=
  { sampleState with players := [sampleDeadPlayer] }

theorem die_noop_when_dead_witness :
    sampleDeadState.players[0]? = some sampleDeadPlayer ∧
    sampleDeadPlayer.isDead = true ∧
    dieAt sampleDeadState 0 = sampleDeadState :=
  ⟨rfl, rfl, die_noop_when_dead sampleDeadState 0 sampleDeadPlayer rfl rfl⟩

/-! ## Claim C9 -/

lemma mkParticles_length (n : ℕ) (x y : ℚ) (sprite : String) :
    ∀ env : Env, (mkParticles env n x y sprite).1.length = n := by
  induction n with
  | zero => intro env; rfl
  | succ n ih =>
    intro env
    unfold mkParticles
    dsimp only
    rw [List.length_cons, ih]

lemma mkParticles_mem (n : ℕ) (x y : ℚ) (sprite : String) :
    ∀ (env : Env) (q : Particle), q ∈ (mkParticles env n x y sprite).1 →
      q.x = x ∧ q.y = y ∧ q.sprite = sprite := by
  induction n with
  | zero =>
    intro env q hq
    simp [mkParticles] at hq
  | succ n ih =>
    intro env q hq
    unfold mkParticles at hq
    dsimp only at hq
    rcases List.mem_cons.mp hq with h | h
    · subst h
      exact ⟨rfl, rfl, rfl⟩
    · exact ih _ q h

/-- Claim **C9.**  When the player-vs-enemy check of the collision pass runs for
a live player overlapping a flipped enemy, that enemy is spliced out of the
roster, the player's score increases by exactly 200, and exactly 20
particles are spawned at the enemy's prior position (with its sprite). -/
theorem flipped_enemy_touch (s : GameState) (i k : ℕ) (p : Player) (e : Enemy)
    (hp : s.players[i]? = some p) (hpd : p.isDead = false)
    (he : s.enemies[k]? = some e) (hf : e.isFlipped = true)
    (hov : p.x < e.x + e.width ∧ p.x + p.width > e.x ∧
           p.y < e.y + e.height ∧ p.y + p.height > e.y) :
    (playerEnemyStep i s k).enemies = s.enemies.eraseIdx k ∧
    scoreAt (playerEnemyStep i s k) i = scoreAt s i + 200 ∧
    (playerEnemyStep i s k).particles =
      s.particles ++ (mkParticles s.env 20 e.x e.y e.sprite).1 ∧
    (mkParticles s.env 20 e.x e.y e.sprite).1.length = 20 ∧
    (∀ q ∈ (mkParticles s.env 20 e.x e.y e.sprite).1,
      q.x = e.x ∧ q.y = e.y ∧ q.sprite = e.sprite) := by
  unfold playerEnemyStep
  rw [hp, he]
  dsimp only
  rw [if_pos hov, if_pos hf]
  refine ⟨rfl, ?_, rfl, mkParticles_length 20 e.x e.y e.sprite s.env,
    fun q hq => mkParticles_mem 20 e.x e.y e.sprite s.env q hq⟩
  show scoresOf (s.players.set i (p.addScore 200 s.highScore).1) i =
    scoresOf s.players i + 200
  unfold scoresOf
  rw [List.getElem?_set_eq_of_lt _ (lt_length_of_getElemQ hp), hp]
  dsimp only
  rw [addScore_score]

/-- A flipped basic enemy overlapping the sample player. -/
def sampleFlippedEnemy : Enemy :=
  { Enemy.mkBase 90 90 36 36 "👾" with isFlipped := true, flipTimer := 4000 }

def sampleOverlapState : GameState :=
  { sampleState with enemies := [sampleFlippedEnemy] }

theorem flipped_enemy_touch_witness :
    sampleOverlapState.players[0]? = some samplePlayer ∧
    samplePlayer.isDead = false ∧
    sampleOverlapState.enemies[0]? = some sampleFlippedEnemy ∧
    sampleFlippedEnemy.isFlipped = true ∧
    ((playerEnemyStep 0 sampleOverlapState 0).enemies =
        sampleOverlapState.enemies.eraseIdx 0 ∧
     scoreAt (playerEnemyStep 0 sampleOverlapState 0) 0 =
        scoreAt sampleOverlapState 0 + 200 ∧
     (playerEnemyStep 0 sampleOverlapState 0).particles =
       sampleOverlapState.particles ++
         (mkParticles sampleOverlapState.env 20 sampleFlippedEnemy.x
           sampleFlippedEnemy.y sampleFlippedEnemy.sprite).1 ∧
     (mkParticles sampleOverlapState.env 20 sampleFlippedEnemy.x
         sampleFlippedEnemy.y sampleFlippedEnemy.sprite).1.length = 20 ∧
     (∀ q ∈ (mkParticles sampleOverlapState.env 20 sampleFlippedEnemy.x
         sampleFlippedEnemy.y sampleFlippedEnemy.sprite).1,
        q.x = sampleFlippedEnemy.x ∧ q.y = sampleFlippedEnemy.y ∧
        q.sprite = sampleFlippedEnemy.sprite)) :=
  ⟨rfl, rfl, rfl, rfl,
   flipped_enemy_touch sampleOverlapState 0 0 samplePlayer sampleFlippedEnemy
     rfl rfl rfl rfl
     (by norm_num [samplePlayer, sampleFlippedEnemy, Enemy.mkBase])⟩

/-! ## Claim C3 -/

/-- An unflipped `ToughEnemy` fresh from its constructor. -/
def cexToughEnemy : Enemy :=
  { Enemy.mkBase 200 100 40 40 "👹" with vx := 1.05, kind := .tough 2 }

/-- An unflipped `IceBomberEnemy` guarding platform 1, with 3000 ms on its
detonation timer. -/
def cexBomberEnemy : Enemy :=
  { Enemy.mkBase 300 100 36 36 "💣" with kind := .iceBomber 3000 (some 1) }

def cexHitState : GameState :=
  { sampleState with enemies := [cexToughEnemy, cexBomberEnemy] }

/-- Claim **C3 counterexample.**  A deliberate `hit()` (uses remaining, off
cooldown) does *not* make every currently-unflipped enemy flipped: a
fresh `ToughEnemy` and an `IceBomberEnemy` both stay unflipped. -/
theorem hit_flips_all_counterexample :
    cexHitState.explosiveBlock.usesLeft > 0 ∧
    cexHitState.explosiveBlock.cooldown ≤ 0 ∧
    cexToughEnemy.isFlipped = false ∧
    cexBomberEnemy.isFlipped = false ∧
    ((hitBlock cexHitState).enemies.all fun e => e.isFlipped) = false := by
  refine ⟨by decide, by decide, rfl, rfl, ?_⟩
  decide

/-- Claim **C3 (amended).**  When `hit()` fires (uses remaining, off cooldown) it
consumes one use, sets the 500 ms cooldown, shortens the block by
`initialHeight / EXPLOSIVE_BLOCK_USES` (lowering `y` by the same amount),
appends a 50-particle burst, and sends a flip *trigger* to every enemy:
unflipped Basic/Fast/Jumping enemies become flipped, an `IceBomberEnemy`
only has its detonation timer clamped to at most 100 ms (its flip state is
untouched), and a `ToughEnemy` loses one hit point, flipping only when its
hit points are exhausted.  When `usesLeft <= 0` or the cooldown is
running, the call changes nothing. -/
theorem hit_behavior (s : GameState) :
    (s.explosiveBlock.usesLeft > 0 ∧ s.explosiveBlock.cooldown ≤ 0 →
      (hitBlock s).explosiveBlock.usesLeft = s.explosiveBlock.usesLeft - 1 ∧
      (hitBlock s).explosiveBlock.cooldown = 500 ∧
      (hitBlock s).explosiveBlock.height =
        s.explosiveBlock.height -
          s.explosiveBlock.initialHeight / (EXPLOSIVE_BLOCK_USES : ℚ) ∧
      (hitBlock s).explosiveBlock.y =
        s.explosiveBlock.y +
          s.explosiveBlock.initialHeight / (EXPLOSIVE_BLOCK_USES : ℚ) ∧
      (hitBlock s).particles.length = s.particles.length + 50 ∧
      (hitBlock s).enemies = s.enemies.map Enemy.flip) ∧
    (¬(s.explosiveBlock.usesLeft > 0 ∧ s.explosiveBlock.cooldown ≤ 0) →
      hitBlock s = s) ∧
    (∀ e : Enemy,
      ((e.kind = EnemyKind.basic ∨ e.kind = EnemyKind.fast ∨
          (∃ jc, e.kind = EnemyKind.jumping jc)) → e.isFlipped = false →
        (Enemy.flip e).isFlipped = true) ∧
      (∀ t pf, e.kind = EnemyKind.iceBomber t pf →
        (Enemy.flip e).isFlipped = e.isFlipped ∧
        (Enemy.flip e).kind = EnemyKind.iceBomber (min t 100) pf) ∧
      (∀ hits, e.kind = EnemyKind.tough hits → e.isFlipped = false →
        (Enemy.flip e).kind = EnemyKind.tough (hits - 1) ∧
        ((Enemy.flip e).isFlipped = true ↔ hits - 1 ≤ 0))) := by
  refine ⟨?_, ?_, ?_⟩
  · intro h
    unfold hitBlock
    rw [if_pos h]
    refine ⟨rfl, rfl, rfl, rfl, ?_, rfl⟩
    dsimp only
    rw [List.length_append, mkParticles_length]
  · intro h
    unfold hitBlock
    rw [if_neg h]
  · intro e
    refine ⟨?_, ?_, ?_⟩
    · intro hk hf
      unfold Enemy.flip Enemy.baseFlip
      rcases hk with hk | hk | ⟨jc, hk⟩ <;> rw [hk] <;> dsimp only <;>
        rw [if_pos hf]
    · intro t pf hk
      unfold Enemy.flip
      rw [hk]
      exact ⟨rfl, rfl⟩
    · intro hits hk hf
      unfold Enemy.flip
      rw [hk]
      dsimp only
      rw [if_neg (by rw [hf]; exact Bool.false_ne_true)]
      constructor
      · split
        · unfold Enemy.baseFlip
          rw [if_pos (by rw [hf])]
        · rfl
      · constructor
        · intro hflip
          by_contra hle
          rw [if_neg hle] at hflip
          dsimp only at hflip
          rw [hf] at hflip
          exact Bool.false_ne_true hflip
        · intro hle
          rw [if_pos hle]
          unfold Enemy.baseFlip
          rw [if_pos (by rw [hf])]

/-- A fresh unflipped `BasicEnemy` for the C3 witness. -/
def sampleBasicEnemy : Enemy :=
  { Enemy.mkBase 150 60 36 36 "👾" with vx := ENEMY_SPEED }

def sampleHitState : GameState :=
  { sampleState with enemies := [sampleBasicEnemy] }

theorem hit_behavior_witness :
    (sampleHitState.explosiveBlock.usesLeft > 0 ∧
      sampleHitState.explosiveBlock.cooldown ≤ 0) ∧
    ((hitBlock sampleHitState).explosiveBlock.usesLeft =
        sampleHitState.explosiveBlock.usesLeft - 1 ∧
     (hitBlock sampleHitState).explosiveBlock.cooldown = 500 ∧
     (hitBlock sampleHitState).explosiveBlock.height =
       sampleHitState.explosiveBlock.height -
         sampleHitState.explosiveBlock.initialHeight / (EXPLOSIVE_BLOCK_USES : ℚ) ∧
     (hitBlock sampleHitState).explosiveBlock.y =
       sampleHitState.explosiveBlock.y +
         sampleHitState.explosiveBlock.initialHeight / (EXPLOSIVE_BLOCK_USES : ℚ) ∧
     (hitBlock sampleHitState).particles.length =
       sampleHitState.particles.length + 50 ∧
     (hitBlock sampleHitState).enemies =
       sampleHitState.enemies.map Enemy.flip) ∧
    (sampleBasicEnemy.isFlipped = false ∧
     (Enemy.flip sampleBasicEnemy).isFlipped = true) :=
  ⟨⟨by decide, by decide⟩,
   (hit_behavior sampleHitState).1 ⟨by decide, by decide⟩,
   rfl, ((hit_behavior sampleHitState).2.2 sampleBasicEnemy).1 (Or.inl rfl) rfl⟩

/-! ## Claim C7 -/

/-- An already-flipped `IceBomberEnemy` with 3000 ms left on its detonation
timer. -/
def cexFlippedBomber : Enemy :=
  { Enemy.mkBase 300 100 36 36 "💣" with
    isFlipped := true, flipTimer := 4000, kind := .iceBomber 3000 (some 0) }

/-- Claim **C7 counterexample.**  Re-triggering `flip()` on an already-flipped
`IceBomberEnemy` does *not* leave the rest of its state unchanged: the
detonation timer is clamped from 3000 to 100. -/
theorem flip_idempotent_counterexample :
    cexFlippedBomber.isFlipped = true ∧
    Enemy.flip cexFlippedBomber ≠ cexFlippedBomber ∧
    (Enemy.flip cexFlippedBomber).kind = EnemyKind.iceBomber 100 (some 0) := by
  refine ⟨rfl, ?_, by decide⟩
  intro h
  have : (Enemy.flip cexFlippedBomber).kind = cexFlippedBomber.kind := by rw [h]
  rw [show (Enemy.flip cexFlippedBomber).kind =
    EnemyKind.iceBomber 100 (some 0) by decide] at this
  exact absurd this (by decide)

/-- Claim **C7 (amended).**  Re-triggering `flip()` on an already-flipped Basic,
Fast or Jumping enemy is a complete no-op.  An `IceBomberEnemy`'s `flip()`
never touches its flip state or flip timer (flipped or not) but clamps the
detonation timer to at most 100 ms.  A fresh `ToughEnemy` (2 hit points,
unflipped) requires exactly two `flip()` triggers to become flipped. -/
theorem flip_idempotent_amended (e : Enemy) :
    ((e.kind = EnemyKind.basic ∨ e.kind = EnemyKind.fast ∨
        (∃ jc, e.kind = EnemyKind.jumping jc)) → e.isFlipped = true →
      Enemy.flip e = e) ∧
    (∀ t pf, e.kind = EnemyKind.iceBomber t pf →
      (Enemy.flip e).isFlipped = e.isFlipped ∧
      (Enemy.flip e).flipTimer = e.flipTimer ∧
      (Enemy.flip e).x = e.x ∧ (Enemy.flip e).y = e.y ∧
      (Enemy.flip e).vx = e.vx ∧ (Enemy.flip e).vy = e.vy ∧
      (Enemy.flip e).kind = EnemyKind.iceBomber (min t 100) pf) ∧
    (e.kind = EnemyKind.tough 2 → e.isFlipped = false →
      (Enemy.flip e).isFlipped = false ∧
      (Enemy.flip (Enemy.flip e)).isFlipped = true) := by
  refine ⟨?_, ?_, ?_⟩
  · intro hk hf
    unfold Enemy.flip Enemy.baseFlip
    rcases hk with hk | hk | ⟨jc, hk⟩ <;> rw [hk] <;> dsimp only <;>
      rw [if_neg (by rw [hf]; decide)]
  · intro t pf hk
    unfold Enemy.flip
    rw [hk]
    exact ⟨rfl, rfl, rfl, rfl, rfl, rfl, rfl⟩
  · intro hk hf
    constructor
    · unfold Enemy.flip
      rw [hk]
      dsimp only
      rw [if_neg (by rw [hf]; exact Bool.false_ne_true)]
      rw [if_neg (by omega)]
      exact hf
    · have h1 : Enemy.flip e =
        { e with vy := -3, hitAnimationTimer := 300, sprite := "👺",
                 kind := EnemyKind.tough 1 } := by
        unfold Enemy.flip
        rw [hk]
        dsimp only
        rw [if_neg (by rw [hf]; exact Bool.false_ne_true)]
        rw [if_neg (by omega)]
        rfl
      rw [h1]
      unfold Enemy.flip
      dsimp only
      rw [if_neg (by rw [hf]; exact Bool.false_ne_true)]
      rw [if_pos (by omega)]
      unfold Enemy.baseFlip
      rw [if_pos (by rw [hf])]

/-- An already-flipped `BasicEnemy` mid-flip. -/
def sampleFlippedBasic : Enemy :=
  { Enemy.mkBase 10 10 36 36 "👾" with isFlipped := true, flipTimer := 2500 }

/-- A fresh `ToughEnemy` with both hit points. -/
def sampleFreshTough : Enemy :=
  { Enemy.mkBase 20 10 40 40 "👹" with vx := 1.05, kind := .tough 2 }

theorem flip_idempotent_amended_witness :
    (sampleFlippedBasic.kind = EnemyKind.basic ∧
     sampleFlippedBasic.isFlipped = true ∧
     Enemy.flip sampleFlippedBasic = sampleFlippedBasic) ∧
    (sampleFreshTough.kind = EnemyKind.tough 2 ∧
     sampleFreshTough.isFlipped = false ∧
     (Enemy.flip sampleFreshTough).isFlipped = false ∧
     (Enemy.flip (Enemy.flip sampleFreshTough)).isFlipped = true) :=
  ⟨⟨rfl, rfl, (flip_idempotent_amended sampleFlippedBasic).1 (Or.inl rfl) rfl⟩,
   ⟨rfl, rfl, ((flip_idempotent_amended sampleFreshTough).2.2 rfl rfl).1,
    ((flip_idempotent_amended sampleFreshTough).2.2 rfl rfl).2⟩⟩

/-! ## Claim C5 -/

def cexFallingPlayer : Player :=
  { samplePlayer with x := 460, y := 555, vy := 10 }

/-- The explosive block exactly as left after its three uses: flattened to
height 0 at `y = 590`. -/
def cexDepletedBlock : ExplosiveBlock :=
  { ExplosiveBlock.init with usesLeft := 0, height := 0, y := 590 }

def cexDepletedState : GameState :=
  { sampleState with
    players := [cexFallingPlayer], explosiveBlock := cexDepletedBlock }

/-- Claim **C5 counterexample.**  With `usesLeft = 0` the steppable-surface
check of the collision pass is skipped entirely (it is gated on
`usesLeft > 0`), so a falling player that satisfies the geometric landing
test passes straight through: the phase is the identity and the player is
left airborne, contradicting the claim that the block can still be landed
on and stood on. -/
theorem depleted_block_landing_counterexample :
    cexDepletedState.explosiveBlock.usesLeft = 0 ∧
    (cexFallingPlayer.x < cexDepletedBlock.x + cexDepletedBlock.width ∧
     cexFallingPlayer.x + cexFallingPlayer.width > cexDepletedBlock.x ∧
     cexFallingPlayer.y + cexFallingPlayer.height ≥ cexDepletedBlock.y ∧
     cexFallingPlayer.y + cexFallingPlayer.height ≤
       cexDepletedBlock.y + 10 + cexFallingPlayer.vy ∧
     cexFallingPlayer.vy ≥ 0) ∧
    playerBlockLand cexDepletedState 0 = cexDepletedState ∧
    ((playerBlockLand cexDepletedState 0).players.all
      fun p => p.onGround = false) = true := by
  have hid : playerBlockLand cexDepletedState 0 = cexDepletedState := rfl
  refine ⟨rfl, ?_, hid, ?_⟩
  · norm_num [cexFallingPlayer, samplePlayer, cexDepletedBlock,
      ExplosiveBlock.init, GAME_WIDTH, GAME_HEIGHT]
  · rw [hid]
    decide

/-- Claim **C5 (amended).**  Once `usesLeft` reaches 0 the block is inert:
`hit()` changes nothing, nothing is drawn, and — contrary to the claim —
a falling player can no longer land on or stand on it: the
steppable-surface branch requires `usesLeft > 0` and leaves the state
untouched. -/
theorem depleted_block_inert (s : GameState)
    (h : s.explosiveBlock.usesLeft ≤ 0) :
    hitBlock s = s ∧
    s.explosiveBlock.draw = false ∧
    ∀ i, playerBlockLand s i = s := by
  refine ⟨?_, ?_, ?_⟩
  · unfold hitBlock
    rw [if_neg (fun hc => absurd hc.1 (by omega))]
  · unfold ExplosiveBlock.draw
    rw [if_pos h]
  · intro i
    unfold playerBlockLand
    cases hp : s.players[i]? with
    | none => rfl
    | some p =>
      dsimp only
      rw [if_neg (fun hc => absurd hc.1 (by omega))]

theorem depleted_block_inert_witness :
    cexDepletedState.explosiveBlock.usesLeft ≤ 0 ∧
    (hitBlock cexDepletedState = cexDepletedState ∧
     cexDepletedState.explosiveBlock.draw = false ∧
     ∀ i, playerBlockLand cexDepletedState i = cexDepletedState) :=
  ⟨by decide, depleted_block_inert cexDepletedState (by decide)⟩

/-! ## Claim C6 -/

/-- The operations that touch the explosive block during a level: `hit()`
(reached via the collision pass) and the per-tick cooldown update. -/
inductive BlockOp where
  | hit
  | tick
deriving DecidableEq, Repr

def applyBlockOp (s : GameState) : BlockOp → GameState
  | .hit => hitBlock s
  | .tick => { s with explosiveBlock := s.explosiveBlock.update }

lemma applyBlockOp_initialHeight (s : GameState) (op : BlockOp) :
    (applyBlockOp s op).explosiveBlock.initialHeight =
      s.explosiveBlock.initialHeight := by
  cases op with
  | hit =>
    show (hitBlock s).explosiveBlock.initialHeight = _
    unfold hitBlock
    dsimp only
    split <;> rfl
  | tick =>
    show (s.explosiveBlock.update).initialHeight = _
    unfold ExplosiveBlock.update
    split <;> rfl

lemma foldl_blockOps_initialHeight (ops : List BlockOp) :
    ∀ s : GameState,
      (ops.foldl applyBlockOp s).explosiveBlock.initialHeight =
        s.explosiveBlock.initialHeight := by
  induction ops with
  | nil => intro s; rfl
  | cons op ops ih =>
    intro s
    rw [List.foldl_cons, ih, applyBlockOp_initialHeight]

/-- Claim **C6.**  After any sequence of block operations (hits — successful or
not — and cooldown ticks) applied to a block constructed with the standard
initial height, `reset()` restores `usesLeft`, `height` and `y` exactly to
their constructed values.  In particular this covers any number
`N ≤ EXPLOSIVE_BLOCK_USES` of successful hits. -/
theorem reset_round_trip (s : GameState) (ops : List BlockOp)
    (h : s.explosiveBlock.initialHeight = ExplosiveBlock.init.initialHeight) :
    ((ops.foldl applyBlockOp s).explosiveBlock).reset.usesLeft =
      ExplosiveBlock.init.usesLeft ∧
    ((ops.foldl applyBlockOp s).explosiveBlock).reset.height =
      ExplosiveBlock.init.height ∧
    ((ops.foldl applyBlockOp s).explosiveBlock).reset.y =
      ExplosiveBlock.init.y := by
  refine ⟨rfl, ?_, rfl⟩
  show (ops.foldl applyBlockOp s).explosiveBlock.initialHeight = _
  rw [foldl_blockOps_initialHeight, h]
  rfl

/-- Three hits, each separated by enough cooldown ticks for the next one
to register. -/
def sampleBlockOps : List BlockOp :=
  [BlockOp.hit] ++ List.replicate 31 BlockOp.tick ++ [BlockOp.hit] ++
    List.replicate 31 BlockOp.tick ++ [BlockOp.hit]

theorem reset_round_trip_witness :
    sampleState.explosiveBlock.initialHeight =
      ExplosiveBlock.init.initialHeight ∧
    (((sampleBlockOps.foldl applyBlockOp sampleState).explosiveBlock).reset.usesLeft =
       ExplosiveBlock.init.usesLeft ∧
     ((sampleBlockOps.foldl applyBlockOp sampleState).explosiveBlock).reset.height =
       ExplosiveBlock.init.height ∧
     ((sampleBlockOps.foldl applyBlockOp sampleState).explosiveBlock).reset.y =
       ExplosiveBlock.init.y) :=
  ⟨rfl, reset_round_trip sampleState sampleBlockOps rfl⟩

/-! ## Claim C8 -/

/-- The moving platform of layout 4, 66 ticks after level start: its
patrol has carried it to `x = 79.2`, still inside `[startX, startX +
range] = [0, 80]`. -/
def cexMobilePlatform : Platform :=
  { (Platform.mk' 0 580 150).makeMobile 1.2 80 with x := 79.2 }

/-- Claim **C8 counterexample.**  One `update()` tick moves the platform to
`x = 80.4 > startX + range`: the position does *not* stay within the
closed patrol interval (the velocity reverses, but only after the bound has
been overshot by up to `|vx|`). -/
theorem platform_band_counterexample :
    cexMobilePlatform.vx ≠ 0 ∧
    cexMobilePlatform.startX ≤ cexMobilePlatform.x ∧
    cexMobilePlatform.x ≤ cexMobilePlatform.startX + cexMobilePlatform.range ∧
    (cexMobilePlatform.update).x >
      cexMobilePlatform.startX + cexMobilePlatform.range := by
  refine ⟨?_, ?_, ?_, ?_⟩ <;>
    norm_num [cexMobilePlatform, Platform.mk', Platform.makeMobile,
      Platform.update, Platform.updateFrozen, Platform.updatePatrol]

/-- The inductive patrol invariant the code actually maintains: the
position stays within the patrol interval *widened by one step* on each
side, and whenever the position is beyond a bound the velocity already
points back inside. -/
def PatrolInv (p : Platform) : Prop :=
  p.startX - |p.vx| ≤ p.x ∧ p.x ≤ p.startX + p.range + |p.vx| ∧
  (p.startX + p.range < p.x → p.vx < 0) ∧
  (p.x < p.startX → 0 < p.vx)

lemma updateFrozen_fields (p : Platform) :
    (p.updateFrozen).x = p.x ∧ (p.updateFrozen).vx = p.vx ∧
    (p.updateFrozen).startX = p.startX ∧ (p.updateFrozen).range = p.range := by
  unfold Platform.updateFrozen
  dsimp only
  split
  · split <;> exact ⟨rfl, rfl, rfl, rfl⟩
  · exact ⟨rfl, rfl, rfl, rfl⟩

lemma patrol_step (p : Platform) (hvx : p.vx ≠ 0) (hr : 0 ≤ p.range)
    (hinv : PatrolInv p) :
    PatrolInv p.updatePatrol ∧
    p.updatePatrol.startX = p.startX ∧
    p.updatePatrol.range = p.range ∧
    (p.updatePatrol.vx = p.vx ∨ p.updatePatrol.vx = -p.vx) ∧
    ((p.x + p.vx ≤ p.startX ∨ p.x + p.vx ≥ p.startX + p.range) →
      p.updatePatrol.vx = -p.vx) ∧
    (¬(p.x + p.vx ≤ p.startX ∨ p.x + p.vx ≥ p.startX + p.range) →
      p.updatePatrol.vx = p.vx) := by
  obtain ⟨h1, h2, h3, h4⟩ := hinv
  unfold Platform.updatePatrol
  rw [if_pos hvx]
  dsimp only
  by_cases hb : p.x + p.vx ≤ p.startX ∨ p.x + p.vx ≥ p.startX + p.range
  · rw [if_pos hb]
    refine ⟨⟨?_, ?_, ?_, ?_⟩, rfl, rfl, Or.inr rfl, fun _ => rfl,
      fun hnb => absurd hb hnb⟩ <;>
      dsimp only <;> (try rw [abs_neg]) <;>
      rcases lt_or_gt_of_ne hvx with hneg | hpos
    · rw [abs_of_neg hneg] at h1 h2 ⊢
      have hx : p.startX ≤ p.x := by
        by_contra hc
        exact absurd (h4 (by linarith)) (by linarith)
      linarith
    · rw [abs_of_pos hpos] at h1 h2 ⊢
      linarith
    · rw [abs_of_neg hneg] at h1 h2 ⊢
      linarith
    · rw [abs_of_pos hpos] at h1 h2 ⊢
      have hx : p.x ≤ p.startX + p.range := by
        by_contra hc
        exact absurd (h3 (by linarith)) (by linarith)
      linarith
    · intro hgt
      rw [abs_of_neg hneg] at h1 h2
      linarith
    · intro hgt
      linarith
    · intro hlt
      linarith
    · intro hlt
      rw [abs_of_pos hpos] at h1 h2
      linarith
  · rw [if_neg hb]
    push_neg at hb
    obtain ⟨hlo, hhi⟩ := hb
    refine ⟨⟨?_, ?_, ?_, ?_⟩, rfl, rfl, Or.inl rfl, fun hbb => absurd hbb ?_,
      fun _ => rfl⟩ <;> dsimp only
    · have := abs_nonneg p.vx
      linarith
    · have := abs_nonneg p.vx
      linarith
    · intro hgt
      linarith
    · intro hlt
      linarith
    · push_neg
      exact ⟨hlo, hhi⟩

/-- Claim **C8 (amended).**  For a patrolling platform (`vx ≠ 0`, nonnegative
range) the code maintains `PatrolInv`: after every `update()` tick the
position stays within the patrol interval *widened by `|vx|`* on each side
— not within the closed interval `[startX, startX + range]` itself, which
can be overshot by up to `|vx|` — and the patrol velocity reverses exactly
when the freshly moved position sits at or beyond a bound. -/
theorem platform_patrol_band (p : Platform) (hvx : p.vx ≠ 0) (hr : 0 ≤ p.range)
    (hinv : PatrolInv p) :
    PatrolInv p.update ∧
    p.update.startX = p.startX ∧
    p.update.range = p.range ∧
    (p.update.vx = p.vx ∨ p.update.vx = -p.vx) ∧
    ((p.x + p.vx ≤ p.startX ∨ p.x + p.vx ≥ p.startX + p.range) →
      p.update.vx = -p.vx) ∧
    (¬(p.x + p.vx ≤ p.startX ∨ p.x + p.vx ≥ p.startX + p.range) →
      p.update.vx = p.vx) := by
  obtain ⟨hfx, hfvx, hfsx, hfr⟩ := updateFrozen_fields p
  have hvx' : (p.updateFrozen).vx ≠ 0 := by rw [hfvx]; exact hvx
  have hr' : 0 ≤ (p.updateFrozen).range := by rw [hfr]; exact hr
  have hinv' : PatrolInv p.updateFrozen := by
    unfold PatrolInv at hinv ⊢
    rw [hfx, hfvx, hfsx, hfr]
    exact hinv
  have hmain := patrol_step p.updateFrozen hvx' hr' hinv'
  rw [hfx, hfvx, hfsx, hfr] at hmain
  exact hmain

/-- The moving platform of layout 3 at level start. -/
def sampleMobilePlatform : Platform := (Platform.mk' 380 400 200).makeMobile 1 100

theorem platform_patrol_band_witness :
    sampleMobilePlatform.vx ≠ 0 ∧ 0 ≤ sampleMobilePlatform.range ∧
    PatrolInv sampleMobilePlatform ∧
    (PatrolInv sampleMobilePlatform.update ∧
     sampleMobilePlatform.update.startX = sampleMobilePlatform.startX ∧
     sampleMobilePlatform.update.range = sampleMobilePlatform.range ∧
     (sampleMobilePlatform.update.vx = sampleMobilePlatform.vx ∨
      sampleMobilePlatform.update.vx = -sampleMobilePlatform.vx) ∧
     ((sampleMobilePlatform.x + sampleMobilePlatform.vx ≤ sampleMobilePlatform.startX ∨
       sampleMobilePlatform.x + sampleMobilePlatform.vx ≥
         sampleMobilePlatform.startX + sampleMobilePlatform.range) →
       sampleMobilePlatform.update.vx = -sampleMobilePlatform.vx) ∧
     (¬(sampleMobilePlatform.x + sampleMobilePlatform.vx ≤ sampleMobilePlatform.startX ∨
        sampleMobilePlatform.x + sampleMobilePlatform.vx ≥
          sampleMobilePlatform.startX + sampleMobilePlatform.range) →
       sampleMobilePlatform.update.vx = sampleMobilePlatform.vx)) :=
  ⟨by norm_num [sampleMobilePlatform, Platform.mk', Platform.makeMobile],
   by norm_num [sampleMobilePlatform, Platform.mk', Platform.makeMobile],
   by norm_num [PatrolInv, sampleMobilePlatform, Platform.mk', Platform.makeMobile],
   platform_patrol_band sampleMobilePlatform
     (by norm_num [sampleMobilePlatform, Platform.mk', Platform.makeMobile])
     (by norm_num [sampleMobilePlatform, Platform.mk', Platform.makeMobile])
     (by norm_num [PatrolInv, sampleMobilePlatform, Platform.mk', Platform.makeMobile])⟩
